import Mathlib

/-!
Verification of the mvnup Resolution & Acquisition Engine.

This file gives a shallow embedding, in Lean, of the core logic of the
mvnup repository (src/main.rs, src/site.rs, src/util.rs) and proves or
refutes the frozen claims about its specification.

Modelling conventions:
* Rust functions become Lean functions; fallible Rust code returning
  `anyhow::Result<T>` becomes `Except String T` (the `String` is the
  formatted error message).
* Network and filesystem effects are passed in explicitly: an HTTP body
  becomes a parameter holding the already-fetched value (or the transport
  error), an on-disk cache becomes a map from filename to the size of the
  file bearing that name, the result of `which` becomes an `Except`/`Bool`
  parameter.
* HTML documents are modelled after extraction: a directory-listing page
  is a list of rows, each row being the `alt` text of an icon `<img>`
  element together with the inner HTML of the `<a>` element that
  immediately follows it.  The CSS selectors of the source
  (`img[alt='[DIR]']+a` and `img[alt*='[  ']+a`) become filters over
  those rows.
* The `semver` crate types used by the source (`Version`, `VersionReq`)
  are embedded following the crate's documented grammar and evaluation
  rules; build metadata is validated during parsing but not stored, since
  neither the repository nor any claim distinguishes two versions that
  differ only in build metadata.
-/

namespace Mvnup

/-- One pre-release identifier of a semver version: either a numeric
identifier (compared numerically, `Sum.inl`) or an alphanumeric identifier
(compared as an ASCII string, `Sum.inr`).  Models `semver::Prerelease`
split at the dots. -/
abbrev PreId := Nat ⊕ String

/-- Model of `semver::Version` as used by the source: three numeric
components plus the (possibly empty) list of pre-release identifiers. -/
structure Version where
  major : Nat
  minor : Nat
  patch : Nat
  pre : List PreId
deriving DecidableEq

/-- Order key for a pre-release list, following semver precedence: an
empty pre-release list (a real release) compares greater than any
non-empty one, hence maps to `⊤`; non-empty lists compare
lexicographically, identifier by identifier, with numeric identifiers
below alphanumeric ones and a strict prefix below its extensions. -/
def preKey (l : List PreId) : WithTop (List (Nat ⊕ₗ String)) :=
  match l with
  | [] => ⊤
  | x :: xs => (((x :: xs).map (fun i => toLex i) : List (Nat ⊕ₗ String)) : WithTop (List (Nat ⊕ₗ String)))

/-- Order key of a whole version: lexicographic on
(major, minor, patch, pre-release key), which is exactly the precedence
order implemented by `Ord for semver::Version` (build metadata aside). -/
def Version.key (v : Version) : Nat ×ₗ (Nat ×ₗ (Nat ×ₗ WithTop (List (Nat ⊕ₗ String)))) :=
  toLex (v.major, toLex (v.minor, toLex (v.patch, preKey v.pre)))

theorem preKey_injective : Function.Injective preKey := by
  intro a b h
  match a, b with
  | [], [] => rfl
  | [], x :: xs => simp [preKey] at h
  | x :: xs, [] => simp [preKey] at h
  | x :: xs, y :: ys =>
    simp only [preKey, WithTop.coe_inj] at h
    exact List.map_injective_iff.mpr toLex.injective h

theorem Version.key_injective : Function.Injective Version.key := by
  intro a b h
  have h1 := toLex.injective h
  rw [Prod.mk.injEq] at h1
  have h2 := toLex.injective h1.2
  rw [Prod.mk.injEq] at h2
  have h3 := toLex.injective h2.2
  rw [Prod.mk.injEq] at h3
  cases a; cases b
  simp only [Version.mk.injEq]
  exact ⟨h1.1, h2.1, h3.1, preKey_injective h3.2⟩

/-- The semver precedence order on `Version`, obtained by lifting the
linear order of the key space through the injective key map. -/
instance : LinearOrder Version := LinearOrder.lift' Version.key Version.key_injective

/-! ### The semver version grammar

`semver::Version::parse` accepts `major.minor.patch` where each core
component is a non-negative integer without leading zeros, optionally
followed by `-` and a dot-separated pre-release, optionally followed by
`+` and a dot-separated build suffix.  Identifiers use the character set
`[0-9A-Za-z-]`; numeric pre-release identifiers must not have leading
zeros.  (Numeric overflow of `u64` is not modelled.) -/

/-- Splits a character list at every occurrence of `sep`. -/
def splitListOn (sep : Char) : List Char → List (List Char)
  | [] => [[]]
  | c :: cs =>
    let r := splitListOn sep cs
    if c = sep then [] :: r
    else
      match r with
      | [] => [[c]]
      | g :: gs => (c :: g) :: gs

/-- Splits a character list at the first occurrence of `sep`; the second
component is `none` when `sep` does not occur. -/
def breakAtFirst (sep : Char) : List Char → List Char × Option (List Char)
  | [] => ([], none)
  | c :: cs =>
    if c = sep then ([], some cs)
    else
      let r := breakAtFirst sep cs
      (c :: r.1, r.2)

/-- Numeric value of a list of decimal digits. -/
def digitsToNat (l : List Char) : Nat :=
  l.foldl (fun acc c => acc * 10 + (c.toNat - 48)) 0

/-- A character allowed in semver identifiers: ASCII alphanumeric or `-`. -/
def isIdentChar (c : Char) : Bool :=
  c.isAlphanum || c = '-'

/-- Parses one core component (`major`, `minor` or `patch`): one or more
digits, no leading zero unless the component is exactly `0`. -/
def parseNumericComponent (l : List Char) : Option Nat :=
  if !l.isEmpty && l.all (·.isDigit) && (l = ['0'] || l.head? ≠ some '0') then
    some (digitsToNat l)
  else none

/-- Parses one pre-release identifier: numeric (no leading zeros) or
alphanumeric over `[0-9A-Za-z-]`, never empty. -/
def parsePreId (l : List Char) : Option PreId :=
  if l.isEmpty then none
  else if l.all (·.isDigit) then
    if l ≠ ['0'] && l.head? = some '0' then none
    else some (Sum.inl (digitsToNat l))
  else if l.all isIdentChar then some (Sum.inr (String.mk l))
  else none

/-- One build identifier: non-empty over `[0-9A-Za-z-]` (leading zeros
are allowed in build metadata). -/
def isBuildId (l : List Char) : Bool :=
  !l.isEmpty && l.all isIdentChar

/-- Model of `semver::Version::parse` over a character list (the build
suffix is validated and then discarded, see the module comment). -/
def Version.parseChars (s : List Char) : Option Version :=
  let afterPlus := breakAtFirst '+' s
  let afterHyphen := breakAtFirst '-' afterPlus.1
  let buildOk :=
    match afterPlus.2 with
    | none => true
    | some b => (splitListOn '.' b).all isBuildId
  if !buildOk then none
  else
    match splitListOn '.' afterHyphen.1 with
    | [ma, mi, pa] => do
      let major ← parseNumericComponent ma
      let minor ← parseNumericComponent mi
      let patch ← parseNumericComponent pa
      let pre ←
        match afterHyphen.2 with
        | none => some ([] : List PreId)
        | some p => (splitListOn '.' p).mapM parsePreId
      some { major, minor, patch, pre }
    | _ => none

/-- Model of `"...".parse::<semver::Version>()`. -/
def Version.parse (s : String) : Option Version :=
  Version.parseChars s.data

/-! ### Page parsing (src/site.rs)

A directory-listing document is modelled after link extraction: one
`LinkRow` per `<a>` element that immediately follows an icon `<img>`
element, carrying the icon's `alt` attribute and the link's inner HTML. -/

/-- One row of an Apache directory-index page, as selected by an
`img[...]+a` CSS selector. -/
structure LinkRow where
  alt : String
  text : String
deriving DecidableEq

/-- Whitespace trimming of a character list, both ends; models
`str::trim` on the inner HTML of a link. -/
def trimChars (l : List Char) : List Char :=
  ((l.dropWhile (·.isWhitespace)).reverse.dropWhile (·.isWhitespace)).reverse

/-- Is `pat` a contiguous sublist of `hay`?  Models the CSS substring
attribute selector `[alt*='...']`. -/
def containsSub (pat : List Char) : List Char → Bool
  | [] => pat.isEmpty
  | c :: cs => pat.isPrefixOf (c :: cs) || containsSub pat cs

/-- Model of `parse_versions` (src/site.rs:388-404): select every link
following an icon with `alt` exactly `[DIR]`, trim it, delete every `/`,
parse it as a semver version, and silently drop the entries that fail to
parse (`flat_map` over the `Result` iterator).  The `Except` layer
mirrors the Rust signature; the only possible failure there is
`Selector::parse` on a constant, always-valid selector, so the function
in fact always succeeds. -/
def parse_versions (rows : List LinkRow) : Except String (List Version) :=
  .ok ((rows.filter (fun r => r.alt.data = "[DIR]".data)).filterMap
    (fun r => Version.parseChars ((trimChars r.text.data).filter (· ≠ '/'))))

/-- Model of `parse_bin_names` (src/site.rs:336-351): select every link
following an icon whose `alt` contains the substring `"[  "` (bracket and
two spaces — the generic-file icon, as opposed to `[DIR]`, `[TXT]` or
`[PARENTDIR]`), and return its trimmed inner HTML.  Like
`parse_versions` it can only fail on the constant selector, hence it
always returns `.ok` — in particular `.ok []` when no row qualifies. -/
def parse_bin_names (rows : List LinkRow) : Except String (List String) :=
  .ok ((rows.filter (fun r => containsSub "[  ".data r.alt.data)).map
    (fun r => String.mk (trimChars r.text.data)))

/-! ### Binary-file metadata (src/site.rs) -/

/-- Abstract timestamp standing for `chrono::DateTime<Local>`; RFC-2822
parsing is never re-implemented, it enters the model as an explicit
parsing function `String → Option DateTime`. -/
structure DateTime where
  tick : Int
deriving DecidableEq

/-- Abstract MIME type standing for `mime::Mime`; its parser likewise
enters the model as an explicit function. -/
structure Mime where
  essence : String
deriving DecidableEq

/-- Model of `BinFile` (src/site.rs:49-60): one downloadable binary file
of one version, with the metadata obtained from a `HEAD` request and the
optional digest sidecar contents. -/
structure BinFile where
  url : String
  filename : String
  last_modified : DateTime
  size : Nat
  sha512 : Option (Option String)
  md5 : Option (Option String)
  sha1 : Option (Option String)
  mime : Mime
deriving DecidableEq

/-- Model of `match_digests` (src/util.rs:13-17): despite its name it
compares nothing but sizes — the on-disk byte length against the
artifact's recorded size.  `fileLen` is the metadata length of the
existing cache file. -/
def match_digests (fileLen : Nat) (bin : BinFile) : Bool :=
  fileLen == bin.size

/-- Model of `str::parse::<usize>` on a header value: an optional leading
`+` sign followed by one or more decimal digits (`u64` overflow is not
modelled). -/
def parseUsize (l : List Char) : Option Nat :=
  let d := match l with
    | '+' :: rest => rest
    | _ => l
  if !d.isEmpty && d.all (·.isDigit) then some (digitsToNat d) else none

/-- Outcome of `Site::fetch_bins` (src/site.rs:185-213).  After the
emptiness check on the parsed names the function body is literally
`todo!()`, so a run that passes the check panics rather than returning —
`todoPanic` records that divergence. -/
inductive FetchBinsOutcome where
  | err (msg : String)
  | todoPanic
deriving DecidableEq

namespace Site

/-- Model of `Site::fetch_bins` (src/site.rs:185-213).  `body` is the
result of the HTTP GET of the version's `binaries/` listing (transport
errors included); the names are parsed from it, an empty name list is
rejected with the error `not found bin names`, and the remainder of the
function is unimplemented in the source (`todo!()`). -/
def fetch_bins (body : Except String (List LinkRow)) : FetchBinsOutcome :=
  match body with
  | .error e => .err e
  | .ok rows =>
    match parse_bin_names rows with
    | .error e => .err e
    | .ok names => if names.isEmpty then .err "not found bin names" else .todoPanic

/-- The `Content-Length` block of `Site::fetch_bin_metadata`
(src/site.rs:250-256): missing header is an error naming the header,
a value that does not parse as a non-negative integer is a parse
error. -/
def headerSize (headers : String → Option String) : Except String Nat :=
  match headers "Content-Length" with
  | none => .error "not found header: Content-Length"
  | some v =>
    match parseUsize v.data with
    | none => .error "invalid digit found in string"
    | some n => .ok n

/-- The `Last-Modified` block of `Site::fetch_bin_metadata`
(src/site.rs:258-264): missing header is an error naming the header, a
value rejected by the RFC-2822 parser is a parse error. -/
def headerLastModified (parseDate : String → Option DateTime)
    (headers : String → Option String) : Except String DateTime :=
  match headers "Last-Modified" with
  | none => .error "not found header: Last-Modified"
  | some v =>
    match parseDate v with
    | none => .error "input contains invalid characters"
    | some d => .ok d

/-- The `Content-Type` block of `Site::fetch_bin_metadata`
(src/site.rs:266-272): missing header is an error naming the header, a
value rejected by the MIME parser is a parse error. -/
def headerMime (parseMime : String → Option Mime)
    (headers : String → Option String) : Except String Mime :=
  match headers "Content-Type" with
  | none => .error "not found header: Content-Type"
  | some v =>
    match parseMime v with
    | none => .error "invalid mime type"
    | some m => .ok m

/-- Model of `Site::fetch_bin_metadata` (src/site.rs:217-303).
Parameters stand for the effects of the source, in its order of
execution: `body` is the fetched `binaries/` listing, `filename` the
result of `get_filename` on the directory URL, `statusOk` the success
bit of the `HEAD` response status, `headers` the response header map
(header-name lookup is total over the three names used), and
`parseDate` / `parseMime` the RFC-2822 and MIME parsers applied to
header values.  Each of `Content-Length`, `Last-Modified` and
`Content-Type` is looked up in turn by the header blocks above, and the
`BinFile` is assembled only when all three succeed (digests are left
unset by this function). -/
def fetch_bin_metadata (parseDate : String → Option DateTime)
    (parseMime : String → Option Mime) (body : Except String (List LinkRow))
    (filename : String) (url : String) (statusOk : Bool)
    (headers : String → Option String) : Except String BinFile := do
  let rows ← body
  let names ← parse_bin_names rows
  if names.isEmpty then throw "not found bin names"
  else if !statusOk then throw ("failed to response status for " ++ url)
  else do
    let size ← headerSize headers
    let lastModified ← headerLastModified parseDate headers
    let mime ← headerMime parseMime headers
    pure { url, filename, last_modified := lastModified, size,
           sha512 := none, md5 := none, sha1 := none, mime }

end Site

/-! ### Version constraints (the `semver::VersionReq` dependency)

`Manager::match_version` parses the user pattern with
`str::parse::<VersionReq>` and filters the catalog with
`VersionReq::matches`.  The comparator data type and the evaluation
rules below follow the semver crate (`semver::Comparator`,
`semver/src/eval.rs`). -/

/-- A comparator operator of the semver requirement grammar. -/
inductive Op where
  | exact
  | greater
  | greaterEq
  | less
  | lessEq
  | tilde
  | caret
  | wildcard
deriving DecidableEq

/-- One comparator: an operator applied to a partial version
(`major[.minor[.patch[-pre]]]`). -/
structure Comparator where
  op : Op
  major : Nat
  minor : Option Nat
  patch : Option Nat
  pre : List PreId
deriving DecidableEq

/-- A requirement: the conjunction of its comparators. -/
structure VersionReq where
  comparators : List Comparator
deriving DecidableEq

/-- Is pre-release list `a` strictly above `b` in semver precedence
(`Ord for semver::Prerelease`, where the empty list — a real release —
is greatest)? -/
def preAbove (a b : List PreId) : Bool :=
  decide (preKey b < preKey a)

namespace Comparator

/-- `matches_exact` of semver/src/eval.rs. -/
def matchesExact (c : Comparator) (v : Version) : Bool :=
  v.major == c.major &&
  (match c.minor with
   | none => true
   | some m => v.minor == m) &&
  (match c.patch with
   | none => true
   | some p => v.patch == p) &&
  v.pre == c.pre

/-- `matches_greater` of semver/src/eval.rs. -/
def matchesGreater (c : Comparator) (v : Version) : Bool :=
  if v.major != c.major then v.major > c.major
  else
    match c.minor with
    | none => false
    | some m =>
      if v.minor != m then v.minor > m
      else
        match c.patch with
        | none => false
        | some p =>
          if v.patch != p then v.patch > p
          else preAbove v.pre c.pre

/-- `matches_less` of semver/src/eval.rs. -/
def matchesLess (c : Comparator) (v : Version) : Bool :=
  if v.major != c.major then v.major < c.major
  else
    match c.minor with
    | none => false
    | some m =>
      if v.minor != m then v.minor < m
      else
        match c.patch with
        | none => false
        | some p =>
          if v.patch != p then v.patch < p
          else preAbove c.pre v.pre

/-- The tail of `matches_tilde` of semver/src/eval.rs, from its
`if let Some(patch) = cmp.patch` block on: an omitted patch falls
through — it does not accept outright — to the trailing
`ver.pre >= cmp.pre` comparison. -/
def matchesTildeTail (c : Comparator) (v : Version) : Bool :=
  match c.patch with
  | some p =>
    if v.patch != p then v.patch > p
    else !preAbove c.pre v.pre
  | none => !preAbove c.pre v.pre

/-- `matches_tilde` of semver/src/eval.rs: reject on a differing major,
reject on a differing minor when one is given, then fall through (also
when minor is omitted) to the patch block and the trailing
`ver.pre >= cmp.pre` comparison of `matchesTildeTail`. -/
def matchesTilde (c : Comparator) (v : Version) : Bool :=
  if v.major != c.major then false
  else
    match c.minor with
    | some m =>
      if v.minor != m then false
      else matchesTildeTail c v
    | none => matchesTildeTail c v

/-- `matches_caret` of semver/src/eval.rs. -/
def matchesCaret (c : Comparator) (v : Version) : Bool :=
  if v.major != c.major then false
  else
    match c.minor with
    | none => true
    | some m =>
      match c.patch with
      | none => if c.major > 0 then v.minor ≥ m else v.minor == m
      | some p =>
        if c.major > 0 then
          if v.minor != m then v.minor > m
          else if v.patch != p then v.patch > p
          else !preAbove c.pre v.pre
        else if m > 0 then
          if v.minor != m then false
          else if v.patch != p then v.patch > p
          else !preAbove c.pre v.pre
        else if v.minor != m || v.patch != p then false
        else !preAbove c.pre v.pre

/-- `matches_impl` of semver/src/eval.rs. -/
def matchesImpl (c : Comparator) (v : Version) : Bool :=
  match c.op with
  | .exact | .wildcard => matchesExact c v
  | .greater => matchesGreater c v
  | .greaterEq => matchesExact c v || matchesGreater c v
  | .less => matchesLess c v
  | .lessEq => matchesExact c v || matchesLess c v
  | .tilde => matchesTilde c v
  | .caret => matchesCaret c v

end Comparator

/-- `pre_is_compatible` of semver/src/eval.rs. -/
def preIsCompatible (c : Comparator) (v : Version) : Bool :=
  c.major == v.major && c.minor == some v.minor && c.patch == some v.patch &&
    !c.pre.isEmpty

/-- `matches_req` of semver/src/eval.rs: every comparator must match,
and a pre-release version additionally needs some comparator that names
its exact triple with a pre-release of its own. -/
def VersionReq.matches (req : VersionReq) (v : Version) : Bool :=
  req.comparators.all (fun c => c.matchesImpl v) &&
  (v.pre.isEmpty ||
    req.comparators.any (fun c => preIsCompatible c v))

/-! ### The acquisition manager (src/main.rs) -/

namespace Manager

/-- The descending sort applied by `Manager::versions`
(`vers.sort_unstable_by(|a, b| b.cmp(a))`).  The semver order is total
and antisymmetric, so the sorted permutation of a list is unique and the
choice of sorting algorithm (here insertion sort, in Rust an unstable
pattern-defeating quicksort) cannot be observed. -/
def sortDescending (vs : List Version) : List Version :=
  vs.insertionSort (· ≥ ·)

/-- Model of `Manager::versions` (src/main.rs:423-431).  `cache` is the
content of the mutex-guarded `versions` vector at entry, `fetched` the
result of `Site::fetch_versions` (one HTTP GET plus `parse_versions`).
A non-empty cache is returned as is; otherwise the fetched list is
sorted newest-first, stored (the store is not modelled — the function
returns what the caller receives) and returned.  There is no emptiness
check on the fetched list. -/
def versions (cache : List Version) (fetched : Except String (List Version)) :
    Except String (List Version) :=
  if !cache.isEmpty then .ok cache
  else fetched.map sortDescending

/-- Model of `Manager::latest_version` (src/main.rs:433-437): the first
element of `versions()`, with an (empty-message) error when the catalog
is empty. -/
def latest_version (cache : List Version)
    (fetched : Except String (List Version)) : Except String Version :=
  (versions cache fetched).bind (fun vs =>
    match vs.head? with
    | some v => .ok v
    | none => .error "")

/-- Model of `Manager::match_version` (src/main.rs:405-421), in source
order: first the host Java lookup (`which("java")` chained with
`find_java_version`, its outcome passed in as `java_ver`), then the
`VersionReq` parse of the pattern (the semver parser passed in as
`parseReq`), then the catalog walk with `Iterator::find`. -/
def match_version (java_ver : Except String String)
    (parseReq : String → Option VersionReq) (ver_pat : String)
    (cache : List Version) (fetched : Except String (List Version)) :
    Except String Version :=
  match java_ver with
  | .error e => .error ("failed to find java version: " ++ e)
  | .ok _ =>
    match parseReq ver_pat with
    | none => .error "unexpected character in version requirement"
    | some req =>
      (versions cache fetched).bind (fun vs =>
        match vs.find? (fun v => req.matches v) with
        | some v => .ok v
        | none => .error ("not matched version for " ++ ver_pat))

/-- The membership test of `Manager::choose_bin`: does the host have
`tar` and does the filename carry one of the three tar-family suffixes
(the `HashSet` of src/main.rs:378-380; only membership is ever queried,
so its iteration order is unobservable)? -/
def tarSupported (has_tar : Bool) (bin : BinFile) : Bool :=
  has_tar && ([".tar.gz", ".tar.bz2", ".tar.xz"].any
    (fun s => s.data.isSuffixOf bin.filename.data))

/-- Model of `Manager::choose_bin` (src/main.rs:377-388): walk the
artifact list in order and return the first one whose filename ends in a
supported tar suffix, provided `which("tar")` succeeded (`has_tar`);
fail with `not found a bin` otherwise. -/
def choose_bin (has_tar : Bool) : List BinFile → Except String BinFile
  | [] => .error "not found a bin"
  | b :: rest =>
    if tarSupported has_tar b then .ok b else choose_bin has_tar rest

/-- Whether `Manager::download` hit the cache or performed the network
transfer. -/
inductive DownloadStep where
  | cached
  | downloaded
deriving DecidableEq

/-- Model of `Manager::download` (src/main.rs:390-403).  `fetched` is
the result of `Site::fetch_bins` for the version (here the assembled
`Vec<BinFile>`, as the completed code would produce), `onDisk` maps a
filename to the byte size of an existing file of that name in the cache
directory (`none` when `down_path.is_file()` is false), and `net` is the
outcome of `BinFile::download`, consulted only when the transfer
happens.  The returned pair carries the cache path (keyed by filename)
and whether a transfer occurred. -/
def download (has_tar : Bool) (fetched : Except String (List BinFile))
    (onDisk : String → Option Nat) (net : Except String Unit) :
    Except String (String × DownloadStep) := do
  let bins ← fetched
  let bin ← choose_bin has_tar bins
  match onDisk bin.filename with
  | some len =>
    if match_digests len bin then pure (bin.filename, .cached)
    else do
      let _ ← net
      pure (bin.filename, .downloaded)
  | none => do
    let _ ← net
    pure (bin.filename, .downloaded)

/-- Model of `Manager::get_multi_bins` (src/main.rs:439-463): fan out
`Site::fetch_bins` over the versions (`fetch` is the per-version
outcome), keep the successes in input order (`flatten` on the joined
`Vec<Result<_>>` drops the failures, which are only logged), and fail
with `not found any bins` exactly when the retained list is empty. -/
def get_multi_bins (fetch : Version → Except String (List BinFile))
    (versions : List Version) :
    Except String (List (Version × List BinFile)) :=
  let res := versions.filterMap (fun v => (fetch v).toOption.map (fun bins => (v, bins)))
  if res.isEmpty then .error "not found any bins" else .ok res

end Manager

/-! ### Concrete values

Fixtures transcribed from the repository's own tests
(`test_parse_versions` and `test_parse_bin_names` in src/site.rs) and
from the `BIN_FILE` constant, used below to instantiate theorems. -/

/-- Version 3.6.3. -/
def v363 : Version := { major := 3, minor := 6, patch := 3, pre := [] }

/-- Version 3.8.1. -/
def v381 : Version := { major := 3, minor := 8, patch := 1, pre := [] }

/-- Version 3.8.3. -/
def v383 : Version := { major := 3, minor := 8, patch := 3, pre := [] }

/-- Version 3.8.4. -/
def v384 : Version := { major := 3, minor := 8, patch := 4, pre := [] }

/-- The rows of the `test_parse_versions` fixture (src/site.rs:439-476):
the blank-icon header link, the parent-directory link, and the 26
version-directory links of the maven-3 index, in page order. -/
def versionIndexRows : List LinkRow :=
  [⟨"Icon ", "Name"⟩, ⟨"[PARENTDIR]", "Parent Directory"⟩,
   ⟨"[DIR]", "3.0.4/"⟩, ⟨"[DIR]", "3.0.5/"⟩, ⟨"[DIR]", "3.1.0-alpha-1/"⟩,
   ⟨"[DIR]", "3.1.0/"⟩, ⟨"[DIR]", "3.1.1/"⟩, ⟨"[DIR]", "3.2.1/"⟩,
   ⟨"[DIR]", "3.2.2/"⟩, ⟨"[DIR]", "3.2.3/"⟩, ⟨"[DIR]", "3.2.5/"⟩,
   ⟨"[DIR]", "3.3.1/"⟩, ⟨"[DIR]", "3.3.3/"⟩, ⟨"[DIR]", "3.3.9/"⟩,
   ⟨"[DIR]", "3.5.0-alpha-1/"⟩, ⟨"[DIR]", "3.5.0-beta-1/"⟩,
   ⟨"[DIR]", "3.5.0/"⟩, ⟨"[DIR]", "3.5.2/"⟩, ⟨"[DIR]", "3.5.3/"⟩,
   ⟨"[DIR]", "3.5.4/"⟩, ⟨"[DIR]", "3.6.0/"⟩, ⟨"[DIR]", "3.6.1/"⟩,
   ⟨"[DIR]", "3.6.2/"⟩, ⟨"[DIR]", "3.6.3/"⟩, ⟨"[DIR]", "3.8.1/"⟩,
   ⟨"[DIR]", "3.8.2/"⟩, ⟨"[DIR]", "3.8.3/"⟩, ⟨"[DIR]", "3.8.4/"⟩]

/-- The rows of the `test_parse_bin_names` fixture (src/site.rs:492-507):
two real artifacts (compressed-file icon, `alt="[   ]"`) among their
`.asc` / `.sha512` sidecars (text icon, `alt="[TXT]"`). -/
def binariesRows : List LinkRow :=
  [⟨"Icon ", "Name"⟩, ⟨"[PARENTDIR]", "Parent Directory"⟩,
   ⟨"[   ]", "apache-maven-3.8.4-bin.tar.gz"⟩,
   ⟨"[TXT]", "apache-maven-3.8.4-bin.tar.gz.asc"⟩,
   ⟨"[TXT]", "apache-maven-3.8.4-bin.tar.gz.sha512"⟩,
   ⟨"[   ]", "apache-maven-3.8.4-bin.zip"⟩,
   ⟨"[TXT]", "apache-maven-3.8.4-bin.zip.asc"⟩,
   ⟨"[TXT]", "apache-maven-3.8.4-bin.zip.sha512"⟩]

/-- The tar.gz artifact of 3.8.4, after the `BIN_FILE` test constant
(src/site.rs:424-435; digests omitted as `fetch_bin_metadata` leaves
them `None`). -/
def binTarGz : BinFile :=
  { url := "https://archive.apache.org/dist/maven/maven-3/3.8.4/binaries/apache-maven-3.8.4-bin.tar.gz",
    filename := "apache-maven-3.8.4-bin.tar.gz",
    last_modified := ⟨1636896301⟩,
    size := 9046177,
    sha512 := none, md5 := none, sha1 := none,
    mime := ⟨"application/x-gzip"⟩ }

/-- The zip artifact of 3.8.4 (no tar-family suffix). -/
def binZip : BinFile :=
  { url := "https://archive.apache.org/dist/maven/maven-3/3.8.4/binaries/apache-maven-3.8.4-bin.zip",
    filename := "apache-maven-3.8.4-bin.zip",
    last_modified := ⟨1636896301⟩,
    size := 9117196,
    sha512 := none, md5 := none, sha1 := none,
    mime := ⟨"application/zip"⟩ }

/-- The comparator the semver crate parses from the pattern `">= 3"`:
operator `>=` on major 3, minor and patch omitted, no pre-release. -/
def reqGe3 : VersionReq :=
  { comparators := [{ op := .greaterEq, major := 3, minor := none, patch := none, pre := [] }] }

/-- A stand-in for `str::parse::<VersionReq>` defined on the single
pattern exercised by the concrete claims: `">= 3"` parses to `reqGe3`. -/
def parseReqGe3 : String → Option VersionReq :=
  fun s => if s = ">= 3" then some reqGe3 else none

/-! ## Claims -/

/-- Bind on a successful `Except` is application. -/
theorem except_bind_ok {ε α β : Type} (a : α) (f : α → Except ε β) :
    (Except.ok a : Except ε α).bind f = f a := rfl

/-- Claim C1, counterexample.  The claim says a fetch whose HTML parse
yields zero versions makes `Manager::versions` return an error
(`EmptyCatalogError`) rather than a successful empty sequence.  The code
has no such check: with an empty cache and a fetch that parses to zero
versions, `Manager::versions` returns `Ok` of the empty list. -/
theorem claim1_counterexample :
    Manager.versions [] (.ok []) = .ok [] := by
  rfl

/-- Claim C1 as amended: `Manager::versions` never turns emptiness into
an error — a successful fetch of any parsed list, the empty one
included, is returned as success (sorted newest-first); it is only
`latest_version` that fails, with an empty-message error, when the
catalog is empty, and it succeeds on any non-empty catalog. -/
theorem claim1_amended_empty_catalog :
    ∀ (vs : List Version),
      Manager.versions [] (.ok vs) = .ok (Manager.sortDescending vs) ∧
      Manager.latest_version [] (.ok []) = .error "" ∧
      (vs ≠ [] → ∃ v, Manager.latest_version [] (.ok vs) = .ok v) := by
  intro vs
  refine ⟨rfl, rfl, fun hne => ?_⟩
  have hsorted : Manager.sortDescending vs ≠ [] := by
    intro h
    have hperm := List.perm_insertionSort (α := Version) (· ≥ ·) vs
    rw [Manager.sortDescending] at h
    rw [h] at hperm
    exact hne (List.nil_perm.mp hperm)
  match hs : Manager.sortDescending vs with
  | [] => exact absurd hs hsorted
  | v :: tl =>
    refine ⟨v, ?_⟩
    unfold Manager.latest_version
    rw [show Manager.versions [] (.ok vs) = .ok (Manager.sortDescending vs) from rfl, hs]
    rfl

/-- Claim C1 witness. -/
theorem claim1_witness :
    ∃ v, Manager.latest_version [] (.ok [v384]) = .ok v :=
  (claim1_amended_empty_catalog [v384]).2.2 (by decide)

/-- Evaluation of `Manager.download` once the artifact selection has
succeeded: the cache decision is a plain case split on the on-disk state
of the selected artifact's filename. -/
theorem download_eq (has_tar : Bool) (bins : List BinFile) (bin : BinFile)
    (onDisk : String → Option Nat) (net : Except String Unit)
    (hchoose : Manager.choose_bin has_tar bins = .ok bin) :
    Manager.download has_tar (.ok bins) onDisk net =
      match onDisk bin.filename with
      | some len =>
        if match_digests len bin then .ok (bin.filename, .cached)
        else net.bind (fun _ => .ok (bin.filename, .downloaded))
      | none => net.bind (fun _ => .ok (bin.filename, .downloaded)) := by
  have h1 : Manager.download has_tar (.ok bins) onDisk net =
      (Manager.choose_bin has_tar bins).bind (fun bin =>
        match onDisk bin.filename with
        | some len =>
          if match_digests len bin then .ok (bin.filename, .cached)
          else net.bind (fun _ => .ok (bin.filename, .downloaded))
        | none => net.bind (fun _ => .ok (bin.filename, .downloaded))) := rfl
  rw [h1, hchoose]
  rfl

/-- Claim C2, counterexample.  The claim says that when a file of the
artifact's name exists in the cache directory with a size different from
the artifact's recorded size, the operation fails with
`CacheMismatchError`.  The code has no such error: with a 5-byte stale
file against the 9046177-byte artifact, `Manager::download` silently
performs the network transfer and succeeds. -/
theorem claim2_counterexample :
    Manager.download true (.ok [binTarGz]) (fun _ => some 5) (.ok ()) =
      .ok ("apache-maven-3.8.4-bin.tar.gz", .downloaded) := by
  rfl

/-- Claim C2 as amended: when a file of the artifact's filename exists
in the cache directory with exactly the artifact's recorded size, the
operation is a cache hit that performs no network transfer — the result
does not even depend on the network outcome `net`; when the sizes
differ, the operation silently re-downloads (the result is exactly the
network transfer's outcome), rather than failing with a dedicated
mismatch error. -/
theorem claim2_amended_cache_or_redownload :
    ∀ (has_tar : Bool) (bins : List BinFile) (bin : BinFile)
      (onDisk : String → Option Nat) (net : Except String Unit),
      Manager.choose_bin has_tar bins = .ok bin →
      (onDisk bin.filename = some bin.size →
        Manager.download has_tar (.ok bins) onDisk net = .ok (bin.filename, .cached)) ∧
      (∀ len, onDisk bin.filename = some len → len ≠ bin.size →
        Manager.download has_tar (.ok bins) onDisk net =
          net.map (fun _ => (bin.filename, .downloaded))) := by
  intro has_tar bins bin onDisk net hchoose
  constructor
  · intro hdisk
    rw [download_eq has_tar bins bin onDisk net hchoose, hdisk]
    simp [match_digests]
  · intro len hdisk hne
    rw [download_eq has_tar bins bin onDisk net hchoose, hdisk]
    have hmd : match_digests len bin = false := by
      simp [match_digests, hne]
    simp only [hmd]
    cases net <;> rfl

/-- Claim C2 witness: a cache hit succeeds with no transfer even when
the network is down. -/
theorem claim2_witness :
    Manager.download true (.ok [binTarGz]) (fun _ => some 9046177) (.error "net down") =
      .ok ("apache-maven-3.8.4-bin.tar.gz", .cached) :=
  (claim2_amended_cache_or_redownload true [binTarGz] binTarGz
    (fun _ => some 9046177) (.error "net down") (by rfl)).1 (by rfl)

/-- Claim C3, counterexample.  The claim says version parsing rejects
pre-release suffixes such as `"3.1.0-alpha-1"`.  The semver parser used
by the source accepts it (three numeric components followed by a valid
pre-release identifier), as the repository's own fixture test confirms
by expecting all 26 directory entries — pre-releases included — to
parse. -/
theorem claim3_counterexample :
    Version.parse "3.1.0-alpha-1" =
      some { major := 3, minor := 1, patch := 0, pre := [Sum.inr "alpha-1"] } := by
  rfl

/-- Claim C3 as amended: version parsing follows the semver grammar —
it requires exactly three dot-separated numeric components (wrong
component count, non-numeric parts and leading zeros are rejected) but
accepts an optional pre-release suffix, so `parse_versions` returns
pre-release directory entries such as `3.1.0-alpha-1` as versions
instead of filtering them out: on the repository's 26-entry fixture it
yields 26 versions, beginning with 3.0.4, ending with 3.8.4, with
3.1.0-alpha-1 as the third. -/
theorem claim3_amended_semver_grammar :
    Version.parse "3.1" = none ∧
    Version.parse "3.1.0.4" = none ∧
    Version.parse "a.b.c" = none ∧
    Version.parse "3.08.4" = none ∧
    Version.parse "3.1.0-alpha-1" =
      some { major := 3, minor := 1, patch := 0, pre := [Sum.inr "alpha-1"] } ∧
    (parse_versions versionIndexRows).map List.length = .ok 26 ∧
    (parse_versions versionIndexRows).map List.head? =
      .ok (some { major := 3, minor := 0, patch := 4, pre := [] }) ∧
    (parse_versions versionIndexRows).map List.getLast? = .ok (some v384) ∧
    (parse_versions versionIndexRows).map (fun l => l.get? 2) =
      .ok (some { major := 3, minor := 1, patch := 0, pre := [Sum.inr "alpha-1"] }) := by
  exact ⟨rfl, rfl, rfl, rfl, rfl, rfl, rfl, rfl, rfl⟩

/-- Claim C4: with the host Java check passed, `Manager::match_version`
returns the first element of the version sequence delivered by
`Manager::versions` (sorted newest-first on first population) that
satisfies the parsed constraint, and fails with an error naming the
constraint pattern when no cataloged version satisfies it; in
particular, against the catalog {3.6.3, 3.8.1, 3.8.3, 3.8.4} the
pattern `">= 3"` resolves to 3.8.4, the head of the newest-first
sequence. -/
theorem claim4_match_first_satisfying :
    (∀ (j pat : String) (parseReq : String → Option VersionReq) (req : VersionReq)
      (cache : List Version) (fetched : Except String (List Version))
      (out : List Version),
      parseReq pat = some req →
      Manager.versions cache fetched = .ok out →
      Manager.match_version (.ok j) parseReq pat cache fetched =
        (match out.find? (fun v => req.matches v) with
         | some v => .ok v
         | none => .error ("not matched version for " ++ pat))) ∧
    Manager.versions [] (.ok [v363, v381, v383, v384]) =
      .ok [v384, v383, v381, v363] ∧
    [v384, v383, v381, v363].find? (fun v => reqGe3.matches v) = some v384 ∧
    Manager.match_version (.ok "17") parseReqGe3 ">= 3" []
      (.ok [v363, v381, v383, v384]) = .ok v384 := by
  refine ⟨?_, rfl, by decide, rfl⟩
  intro j pat parseReq req cache fetched out hparse hvers
  unfold Manager.match_version
  rw [hparse, hvers]
  rfl

/-- Claim C4 witness. -/
theorem claim4_witness :
    Manager.match_version (.ok "17") parseReqGe3 ">= 3" []
      (.ok [v363, v381, v383, v384]) =
      (match [v384, v383, v381, v363].find? (fun v => reqGe3.matches v) with
       | some v => .ok v
       | none => .error ("not matched version for " ++ ">= 3")) :=
  claim4_match_first_satisfying.1 "17" ">= 3" parseReqGe3 reqGe3 []
    (.ok [v363, v381, v383, v384]) [v384, v383, v381, v363] (by rfl) (by rfl)

/-- Claim C6: `Manager::choose_bin` is deterministic and rule-based —
when the host can extract a tar archive (`which("tar")` succeeded) it
returns the first artifact in list order whose filename ends in one of
the supported tar-family suffixes, and it fails with `not found a bin`
when the capability is absent or when no artifact carries a supported
suffix; being a function of its inputs, it selects at most one artifact
per version. -/
theorem claim6_choose_bin_first_supported :
    ∀ (has_tar : Bool) (bins : List BinFile),
      (has_tar = false →
        Manager.choose_bin has_tar bins = .error "not found a bin") ∧
      ((∀ b ∈ bins, Manager.tarSupported has_tar b = false) →
        Manager.choose_bin has_tar bins = .error "not found a bin") ∧
      (∀ l₁ b l₂, bins = l₁ ++ b :: l₂ →
        (∀ x ∈ l₁, Manager.tarSupported has_tar x = false) →
        Manager.tarSupported has_tar b = true →
        Manager.choose_bin has_tar bins = .ok b) := by
  intro has_tar bins
  have hnone : ∀ (l : List BinFile),
      (∀ b ∈ l, Manager.tarSupported has_tar b = false) →
      Manager.choose_bin has_tar l = .error "not found a bin" := by
    intro l
    induction l with
    | nil => intro _; rfl
    | cons hd tl ih =>
      intro h
      have hhd := h hd (List.mem_cons_self hd tl)
      simp [Manager.choose_bin, hhd,
        ih (fun x hx => h x (List.mem_cons_of_mem hd hx))]
  have hfirst : ∀ (l₁ : List BinFile) (b : BinFile) (l₂ : List BinFile),
      (∀ x ∈ l₁, Manager.tarSupported has_tar x = false) →
      Manager.tarSupported has_tar b = true →
      Manager.choose_bin has_tar (l₁ ++ b :: l₂) = .ok b := by
    intro l₁
    induction l₁ with
    | nil =>
      intro b l₂ _ hb
      simp [Manager.choose_bin, hb]
    | cons hd tl ih =>
      intro b l₂ h hb
      have hhd := h hd (List.mem_cons_self hd tl)
      simp only [List.cons_append, Manager.choose_bin, hhd, if_false,
        Bool.false_eq_true]
      exact ih b l₂ (fun x hx => h x (List.mem_cons_of_mem hd hx)) hb
  refine ⟨fun hft => hnone bins (fun b _ => ?_), hnone bins, ?_⟩
  · simp [Manager.tarSupported, hft]
  · intro l₁ b l₂ hb h1 hb2
    subst hb
    exact hfirst l₁ b l₂ h1 hb2

/-- Claim C6 witness: against [zip, tar.gz] with tar available, the zip
artifact is skipped and the tar.gz artifact — the first with a
supported suffix — is selected. -/
theorem claim6_witness :
    Manager.choose_bin true [binZip, binTarGz] = .ok binTarGz :=
  (claim6_choose_bin_first_supported true [binZip, binTarGz]).2.2
    [binZip] binTarGz [] (by rfl) (by decide) (by decide)

/-- Claim C5, counterexample.  The claim says every list returned by
`Manager::versions` is strictly descending, including for listings with
duplicate version directory entries.  A listing parsing to the same
version twice is returned with the duplicate kept — `sort_unstable_by`
does not deduplicate — and an adjacent pair of equal versions is not
strictly descending. -/
theorem claim5_counterexample :
    Manager.versions [] (.ok [v384, v384]) = .ok [v384, v384] ∧
    ¬ ([v384, v384].Chain' (· > ·)) := by
  exact ⟨rfl, by simp⟩

/-- Claim C5 as amended: every list returned by the first population of
`Manager::versions` is descending under the semver order — every
adjacent pair satisfies `≥` — and is a permutation of the parsed input;
it is strictly descending only when the input carries no duplicates. -/
theorem claim5_amended_descending :
    ∀ (vs out : List Version), Manager.versions [] (.ok vs) = .ok out →
      out.Chain' (· ≥ ·) ∧ out.Perm vs := by
  intro vs out h
  have hout : out = Manager.sortDescending vs := by
    rw [show Manager.versions [] (.ok vs) = .ok (Manager.sortDescending vs) from rfl] at h
    exact (Except.ok.inj h).symm
  subst hout
  constructor
  · exact (List.sorted_insertionSort (α := Version) (· ≥ ·) vs).chain'
  · exact List.perm_insertionSort (α := Version) (· ≥ ·) vs

/-- Claim C5 witness. -/
theorem claim5_witness :
    [v384, v363].Chain' (· ≥ ·) ∧ [v384, v363].Perm [v363, v384] :=
  claim5_amended_descending [v363, v384] [v384, v363] (by rfl)

/-- Claim C7, counterexample.  The claim says `parse_bin_names` itself
fails with a parse error on every listing with zero qualifying file
entries.  On a listing holding only a `[TXT]`-icon sidecar row — zero
qualifying entries — it returns `Ok` of the empty list instead. -/
theorem claim7_counterexample :
    parse_bin_names [⟨"[TXT]", "apache-maven-3.8.4-bin.tar.gz.asc"⟩] = .ok [] := by
  rfl

/-- Claim C7 as amended: `parse_bin_names` never fails — it returns the
(possibly empty) list of qualifying entries — and it is its caller
`Site::fetch_bins` that turns an empty name list into the error
`not found bin names`, so an empty artifact list still never escapes a
fetch as a success. -/
theorem claim7_amended_empty_checked_by_caller :
    ∀ (rows : List LinkRow),
      (∃ names, parse_bin_names rows = .ok names) ∧
      (parse_bin_names rows = .ok [] →
        Site.fetch_bins (.ok rows) = .err "not found bin names") := by
  intro rows
  refine ⟨⟨_, rfl⟩, fun h => ?_⟩
  have hstep : Site.fetch_bins (.ok rows) =
      match parse_bin_names rows with
      | .error e => .err e
      | .ok names =>
        if names.isEmpty then .err "not found bin names" else .todoPanic := rfl
  rw [hstep, h]
  rfl

/-- Claim C7 witness. -/
theorem claim7_witness :
    Site.fetch_bins (.ok [⟨"[TXT]", "apache-maven-3.8.4-bin.tar.gz.asc"⟩]) =
      .err "not found bin names" :=
  (claim7_amended_empty_checked_by_caller
    [⟨"[TXT]", "apache-maven-3.8.4-bin.tar.gz.asc"⟩]).2 (by rfl)

/-- Claim C8: in a metadata (header-only) fetch with a usable listing
and a successful response status, each of the three mandatory headers
is checked: a missing `Content-Length`, `Last-Modified` or
`Content-Type` fails the fetch with an error naming that header, a
present value that fails its parser (non-negative integer, RFC-2822
date, MIME type) fails the fetch with a parse error, any header-block
failure is the failure of the whole fetch, and the `BinFile` is
constructed — with both its size and its last-modified timestamp set
from the parsed header values — exactly when all three blocks
succeed.  No header is ever defaulted. -/
theorem claim8_metadata_headers_mandatory :
    ∀ (parseDate : String → Option DateTime) (parseMime : String → Option Mime)
      (rows : List LinkRow) (names : List String) (fn url : String)
      (headers : String → Option String),
      parse_bin_names rows = .ok names → names ≠ [] →
      ((headers "Content-Length" = none →
          Site.headerSize headers = .error "not found header: Content-Length") ∧
       (∀ v, headers "Content-Length" = some v → parseUsize v.data = none →
          Site.headerSize headers = .error "invalid digit found in string") ∧
       (headers "Last-Modified" = none →
          Site.headerLastModified parseDate headers =
            .error "not found header: Last-Modified") ∧
       (∀ v, headers "Last-Modified" = some v → parseDate v = none →
          Site.headerLastModified parseDate headers =
            .error "input contains invalid characters") ∧
       (headers "Content-Type" = none →
          Site.headerMime parseMime headers =
            .error "not found header: Content-Type") ∧
       (∀ v, headers "Content-Type" = some v → parseMime v = none →
          Site.headerMime parseMime headers = .error "invalid mime type") ∧
       (∀ e, Site.headerSize headers = .error e →
          Site.fetch_bin_metadata parseDate parseMime (.ok rows) fn url true headers =
            .error e) ∧
       (∀ n e, Site.headerSize headers = .ok n →
          Site.headerLastModified parseDate headers = .error e →
          Site.fetch_bin_metadata parseDate parseMime (.ok rows) fn url true headers =
            .error e) ∧
       (∀ n d e, Site.headerSize headers = .ok n →
          Site.headerLastModified parseDate headers = .ok d →
          Site.headerMime parseMime headers = .error e →
          Site.fetch_bin_metadata parseDate parseMime (.ok rows) fn url true headers =
            .error e) ∧
       (∀ n d m, Site.headerSize headers = .ok n →
          Site.headerLastModified parseDate headers = .ok d →
          Site.headerMime parseMime headers = .ok m →
          Site.fetch_bin_metadata parseDate parseMime (.ok rows) fn url true headers =
            .ok { url, filename := fn, last_modified := d, size := n,
                  sha512 := none, md5 := none, sha1 := none, mime := m })) := by
  intro parseDate parseMime rows names fn url headers hparse hnames
  have hne : names.isEmpty = false := List.isEmpty_eq_false.mpr hnames
  have hR : Site.fetch_bin_metadata parseDate parseMime (.ok rows) fn url true headers =
      (Site.headerSize headers).bind (fun size =>
        (Site.headerLastModified parseDate headers).bind (fun lastModified =>
          (Site.headerMime parseMime headers).bind (fun mime =>
            .ok { url, filename := fn, last_modified := lastModified, size,
                  sha512 := none, md5 := none, sha1 := none, mime }))) := by
    have h0 : Site.fetch_bin_metadata parseDate parseMime (.ok rows) fn url true headers =
        (parse_bin_names rows).bind (fun names =>
          if names.isEmpty then .error "not found bin names"
          else
            (Site.headerSize headers).bind (fun size =>
              (Site.headerLastModified parseDate headers).bind (fun lastModified =>
                (Site.headerMime parseMime headers).bind (fun mime =>
                  .ok { url, filename := fn, last_modified := lastModified, size,
                        sha512 := none, md5 := none, sha1 := none, mime })))) := rfl
    rw [h0, hparse]
    simp only [except_bind_ok, hne, Bool.false_eq_true, if_false]
  refine ⟨?_, ?_, ?_, ?_, ?_, ?_, ?_, ?_, ?_, ?_⟩
  · intro h
    unfold Site.headerSize
    rw [h]
  · intro v hv hp
    unfold Site.headerSize
    rw [hv]
    simp only [hp]
  · intro h
    unfold Site.headerLastModified
    rw [h]
  · intro v hv hp
    unfold Site.headerLastModified
    rw [hv]
    simp only [hp]
  · intro h
    unfold Site.headerMime
    rw [h]
  · intro v hv hp
    unfold Site.headerMime
    rw [hv]
    simp only [hp]
  · intro e he
    rw [hR, he]
    rfl
  · intro n e hn he
    rw [hR, hn]
    simp only [except_bind_ok]
    rw [he]
    rfl
  · intro n d e hn hd he
    rw [hR, hn]
    simp only [except_bind_ok]
    rw [hd]
    simp only [except_bind_ok]
    rw [he]
    rfl
  · intro n d m hn hd hm
    rw [hR, hn]
    simp only [except_bind_ok]
    rw [hd]
    simp only [except_bind_ok]
    rw [hm]
    rfl

/-- Claim C8 witness: the headers documented in the repository's test
comment (src/site.rs:413-423) assemble the expected `BinFile`; the same
map with `Last-Modified` removed fails naming that header. -/
theorem claim8_witness :
    Site.fetch_bin_metadata
      (fun s => if s = "Sun, 14 Nov 2021 13:25:01 GMT" then some ⟨1636896301⟩ else none)
      (fun s => some ⟨s⟩)
      (.ok binariesRows) "binaries"
      "https://archive.apache.org/dist/maven/maven-3/3.8.4/binaries/" true
      (fun n =>
        if n = "Content-Length" then some "9046177"
        else if n = "Last-Modified" then some "Sun, 14 Nov 2021 13:25:01 GMT"
        else if n = "Content-Type" then some "application/x-gzip"
        else none) =
      .ok { url := "https://archive.apache.org/dist/maven/maven-3/3.8.4/binaries/",
            filename := "binaries", last_modified := ⟨1636896301⟩,
            size := 9046177, sha512 := none, md5 := none, sha1 := none,
            mime := ⟨"application/x-gzip"⟩ } :=
  (claim8_metadata_headers_mandatory
    (fun s => if s = "Sun, 14 Nov 2021 13:25:01 GMT" then some ⟨1636896301⟩ else none)
    (fun s => some ⟨s⟩) binariesRows
    ["apache-maven-3.8.4-bin.tar.gz", "apache-maven-3.8.4-bin.zip"]
    "binaries" "https://archive.apache.org/dist/maven/maven-3/3.8.4/binaries/"
    (fun n =>
      if n = "Content-Length" then some "9046177"
      else if n = "Last-Modified" then some "Sun, 14 Nov 2021 13:25:01 GMT"
      else if n = "Content-Type" then some "application/x-gzip"
      else none)
    (by rfl) (by decide)).2.2.2.2.2.2.2.2.2 9046177 ⟨1636896301⟩
      ⟨"application/x-gzip"⟩ (by rfl) (by rfl) (by rfl)

/-- Claim C9: the multi-version batch fetch tolerates partial failure —
the successful versions are kept, in input order, each paired with its
fetched binaries, every failing version is dropped, and the batch fails
(with `not found any bins`) exactly when every version's fetch fails
(vacuously including the empty batch). -/
theorem claim9_batch_partial_failure :
    ∀ (fetch : Version → Except String (List BinFile)) (vers : List Version),
      (Manager.get_multi_bins fetch vers = .error "not found any bins" ↔
        ∀ v ∈ vers, ∃ e, fetch v = .error e) ∧
      (∀ res, Manager.get_multi_bins fetch vers = .ok res →
        res = vers.filterMap (fun v => (fetch v).toOption.map (fun bins => (v, bins)))) := by
  intro fetch vers
  have htoOpt : ∀ v, ((fetch v).toOption.map (fun bins => (v, bins)) = none ↔
      ∃ e, fetch v = .error e) := by
    intro v
    cases hf : fetch v with
    | error e => simp [Except.toOption]
    | ok bins => simp [Except.toOption]
  have hempty : (vers.filterMap (fun v => (fetch v).toOption.map (fun bins => (v, bins))) = [] ↔
      ∀ v ∈ vers, ∃ e, fetch v = .error e) := by
    rw [List.filterMap_eq_nil_iff]
    constructor
    · intro h v hv
      exact (htoOpt v).mp (h v hv)
    · intro h v hv
      exact (htoOpt v).mpr (h v hv)
  constructor
  · constructor
    · intro h
      rw [← hempty]
      unfold Manager.get_multi_bins at h
      by_cases hres : (vers.filterMap (fun v => (fetch v).toOption.map (fun bins => (v, bins)))).isEmpty
      · exact List.isEmpty_iff.mp hres
      · rw [if_neg hres] at h
        exact absurd h (by simp)
    · intro h
      unfold Manager.get_multi_bins
      rw [if_pos (List.isEmpty_iff.mpr (hempty.mpr h))]
  · intro res h
    unfold Manager.get_multi_bins at h
    by_cases hres : (vers.filterMap (fun v => (fetch v).toOption.map (fun bins => (v, bins)))).isEmpty
    · rw [if_pos hres] at h
      exact absurd h (by simp)
    · rw [if_neg hres] at h
      exact (Except.ok.inj h).symm

/-- Claim C9 witness: across 5 versions with exactly one failing fetch,
the batch returns exactly the 4 successful (version, binaries) pairs,
in order. -/
theorem claim9_witness :
    [(v384, [binTarGz]), (v381, [binTarGz]), (v363, [binTarGz]),
        ({ major := 3, minor := 0, patch := 4, pre := [] }, [binTarGz])] =
      [v384, v383, v381, v363,
        ({ major := 3, minor := 0, patch := 4, pre := [] } : Version)].filterMap
        (fun v =>
          ((fun v => if v = v383 then (.error "timeout" : Except String (List BinFile))
            else .ok [binTarGz]) v).toOption.map (fun bins => (v, bins))) :=
  (claim9_batch_partial_failure
    (fun v => if v = v383 then .error "timeout" else .ok [binTarGz])
    [v384, v383, v381, v363, { major := 3, minor := 0, patch := 4, pre := [] }]).2
    [(v384, [binTarGz]), (v381, [binTarGz]), (v363, [binTarGz]),
      ({ major := 3, minor := 0, patch := 4, pre := [] }, [binTarGz])] (by rfl)

/-- Claim C10: `Manager::match_version` checks for a host `java`
executable first — when the lookup (or its version parse) fails, the
call fails with an error wrapping that failure, for every pattern
(parseable or not) and every catalog state (before the pattern is ever
parsed and before any version is examined) — while
`Manager::latest_version` performs no such check and resolves the head
of the catalog without any Java lookup. -/
theorem claim10_java_precondition :
    ∀ (e : String) (parseReq : String → Option VersionReq) (pat : String)
      (cache : List Version) (fetched : Except String (List Version)),
      Manager.match_version (.error e) parseReq pat cache fetched =
        .error ("failed to find java version: " ++ e) ∧
      (∀ v tl, Manager.versions cache fetched = .ok (v :: tl) →
        Manager.latest_version cache fetched = .ok v) := by
  intro e parseReq pat cache fetched
  refine ⟨rfl, fun v tl h => ?_⟩
  unfold Manager.latest_version
  rw [h]
  rfl

/-- Claim C10 witness: with `java` missing the pattern-based resolution
fails even on a catalog whose head satisfies any constraint, while the
latest-version resolution succeeds on the same catalog. -/
theorem claim10_witness :
    Manager.match_version (.error "cannot find binary path") parseReqGe3 ">= 3" []
        (.ok [v384]) =
      .error ("failed to find java version: " ++ "cannot find binary path") ∧
    Manager.latest_version [] (.ok [v384]) = .ok v384 :=
  ⟨(claim10_java_precondition "cannot find binary path" parseReqGe3 ">= 3" []
      (.ok [v384])).1,
   (claim10_java_precondition "cannot find binary path" parseReqGe3 ">= 3" []
      (.ok [v384])).2 v384 [] (by rfl)⟩

end Mvnup
